import Mathlib

/-!
Verification of the core of lua-pthread: a shallow embedding of the bounded
queue engine (src/queue.c), the thread lifecycle manager (src/lpthread.c,
src/self.c) and the Lua queue-handle layer (src/lqueue.c), together with
theorems settling the specified properties.

The embedding models the sequential, error-free execution of the C code:
machine integers become Nat/Int (sizes are size_t and therefore Nat with
truncated subtraction exactly where C uses unsigned subtraction), the two
notification pipes become explicit byte counters, and fallible syscalls that
the claims reason about (EINTR retries) take an explicit script of outcomes.
-/

namespace LuaPthread

/-- The tagged payload union `qdata_t` of src/lqueue.c.  `number` carries the
bit pattern of the lua_Number opaquely; the queue itself never interprets
payloads.  Used as the opaque `void *data` payload of queue items. -/
inductive QData where
  | qtrue : QData
  | qfalse : QData
  | lightuserdata (p : Nat) : QData
  | number (bits : Nat) : QData
  | integer (i : Int) : QData
  | str (s : List Char) : QData
deriving DecidableEq

/-- sizeof(queue_item_t): data pointer, size, prev/next links (LP64). -/
def queue_item_sizeof : Nat := 32

/-- The state of a `queue_t` (src/queue.h).  The two signaling pipes are
modelled by the number of bytes currently buffered in each
(`pipeReadableBytes`, `pipeWritableBytes`) together with the status flags
QUEUE_STATUS_READABLE / QUEUE_STATUS_WRITABLE. The linked list of
`queue_item_t` is the list `items` (head of the list = head of the queue),
each entry holding the opaque payload and its declared size. -/
structure Queue where
  maxitem : Nat
  maxsize : Nat
  totalitem : Nat
  totalsize : Nat
  items : List (QData × Nat)
  refcnt : Nat
  statusReadable : Bool
  statusWritable : Bool
  pipeReadableBytes : Nat
  pipeWritableBytes : Nat
deriving DecidableEq

/-- Model of `notify_writable` (queue.c:64): write one byte to the writable pipe and
set the status flag, unless the flag is already set. -/
def notify_writable (q : Queue) : Queue :=
  if q.statusWritable then q
  else { q with statusWritable := true,
                pipeWritableBytes := q.pipeWritableBytes + 1 }

/-- Model of `notify_readable` (queue.c:75). -/
def notify_readable (q : Queue) : Queue :=
  if q.statusReadable then q
  else { q with statusReadable := true,
                pipeReadableBytes := q.pipeReadableBytes + 1 }

/-- Model of `unnotify_writable` (queue.c:102): drain one byte from the writable pipe
and clear the status flag, unless the flag is already clear. -/
def unnotify_writable (q : Queue) : Queue :=
  if q.statusWritable then
    { q with statusWritable := false,
             pipeWritableBytes := q.pipeWritableBytes - 1 }
  else q

/-- Model of `unnotify_readable` (queue.c:113). -/
def unnotify_readable (q : Queue) : Queue :=
  if q.statusReadable then
    { q with statusReadable := false,
             pipeReadableBytes := q.pipeReadableBytes - 1 }
  else q

/-- Model of `queue_new` (queue.c:124): negative bounds are normalized to 0
(unbounded); the fresh queue is empty, has refcnt 1, and the writable signal
is asserted when `maxitem == 0 || totalitem < maxitem`. -/
def queue_new (maxitem maxsize : Int) : Queue :=
  let q : Queue :=
    { maxitem := if 0 < maxitem then maxitem.toNat else 0
      maxsize := if 0 < maxsize then maxsize.toNat else 0
      totalitem := 0
      totalsize := 0
      items := []
      refcnt := 1
      statusReadable := false
      statusWritable := false
      pipeReadableBytes := 0
      pipeWritableBytes := 0 }
  if q.maxitem = 0 ∨ q.totalitem < q.maxitem then notify_writable q else q

/-- The fullness test of `queue_push` (queue.c:276-279).  All size
arithmetic is size_t arithmetic; C's short-circuit evaluation guarantees
every subtraction evaluated is non-underflowing, so Nat truncated
subtraction agrees with the C values wherever they matter. -/
def queue_isfull (q : Queue) (size : Nat) : Bool :=
  (0 < q.maxitem && q.maxitem ≤ q.totalitem) ||
  (0 < q.maxsize &&
    (q.maxsize < size || q.maxsize - size < queue_item_sizeof ||
     q.maxsize - size - queue_item_sizeof < q.totalsize))

/-- Result of `queue_push`: 1 = accepted, 0 = queue full (the -1 error
return happens only when a syscall fails, outside this error-free model). -/
inductive PushResult where
  | accepted : PushResult
  | full : PushResult
deriving DecidableEq

/-- Model of `queue_push` (queue.c:270): if full, clear the writable signal and
report full without mutating anything else; otherwise assert the readable
signal when the queue was empty, then append the item at the tail and bump
the counters. -/
def queue_push (q : Queue) (d : QData) (s : Nat) : PushResult × Queue :=
  if queue_isfull q s then (PushResult.full, unnotify_writable q)
  else
    let q1 := if q.totalitem = 0 then notify_readable q else q
    (PushResult.accepted,
      { q1 with totalitem := q1.totalitem + 1,
                totalsize := q1.totalsize + s + queue_item_sizeof,
                items := q1.items ++ [(d, s)] })

/-- Model of `queue_pop` (queue.c:338): empty queue reports no data; otherwise clear
the readable signal when popping the last item, assert the writable signal,
and remove the head item (`remove_head`, queue.c:319). -/
def queue_pop (q : Queue) : Option QData × Queue :=
  match q.items with
  | [] => (none, q)
  | (d, s) :: tl =>
    let q1 := if q.totalitem = 1 then unnotify_readable q else q
    let q2 := notify_writable q1
    (some d,
      { q2 with totalitem := q2.totalitem - 1,
                totalsize := q2.totalsize - (s + queue_item_sizeof),
                items := tl })

/-- Model of `queue_ref` (queue.c:164). -/
def queue_ref (q : Queue) : Queue :=
  { q with refcnt := q.refcnt + 1 }

/-- Observable side effects of destroying a queue in `queue_unref`:
each remaining item's payload handed to the delete callback (in head-to-tail
order), the two pipe pairs closed, and the structure freed. -/
inductive DestroyEvent where
  | deleteCb (d : QData) : DestroyEvent
  | closedPipeReadable : DestroyEvent
  | closedPipeWritable : DestroyEvent
  | freed : DestroyEvent
deriving DecidableEq

/-- Model of `queue_unref` (queue.c:174): while someone else still holds a
reference, just decrement it; at refcnt 1 drain every remaining item through
the delete callback, close both pipe pairs and free the queue (result
`none` together with the trace of destruction events). -/
def queue_unref (q : Queue) : Option Queue × List DestroyEvent :=
  if 1 < q.refcnt then (some { q with refcnt := q.refcnt - 1 }, [])
  else
    (none,
      q.items.map (fun it => DestroyEvent.deleteCb it.1) ++
        [DestroyEvent.closedPipeReadable, DestroyEvent.closedPipeWritable,
         DestroyEvent.freed])

/-- Model of `queue_nref` (queue.c:210). -/
def queue_nref (q : Queue) : Nat := q.refcnt

/-- Model of `queue_maxitem` (queue.c:220). -/
def queue_maxitem (q : Queue) : Nat := q.maxitem

/-- Model of `queue_len` (queue.c:230). -/
def queue_len (q : Queue) : Nat := q.totalitem

/-- Model of `queue_size` (queue.c:240). -/
def queue_size (q : Queue) : Nat := q.totalsize

/-- A single sequential queue operation, for replaying histories. -/
inductive QOp where
  | push (d : QData) (s : Nat) : QOp
  | pop : QOp
deriving DecidableEq

/-- Result of replaying a history of queue operations: the final queue
state, the payloads of the accepted pushes in push order, and the payloads
returned by the successful pops in pop order. -/
structure RunResult where
  final : Queue
  accepted : List QData
  popped : List QData
deriving DecidableEq

/-- Replay a sequence of `queue_push`/`queue_pop` calls on a queue with no
concurrency, recording accepted pushes and successful pops. -/
def runOps : List QOp → Queue → RunResult
  | [], q => ⟨q, [], []⟩
  | QOp.push d s :: rest, q =>
    let r := queue_push q d s
    let rr := runOps rest r.2
    ⟨rr.final,
     (if r.1 = PushResult.accepted then [d] else []) ++ rr.accepted,
     rr.popped⟩
  | QOp.pop :: rest, q =>
    let r := queue_pop q
    let rr := runOps rest r.2
    ⟨rr.final, rr.accepted,
     (match r.1 with | some d => [d] | none => []) ++ rr.popped⟩

/-- One step of the queue API. -/
inductive QueueStep : Queue → Queue → Prop
  | push (q : Queue) (d : QData) (s : Nat) : QueueStep q (queue_push q d s).2
  | pop (q : Queue) : QueueStep q (queue_pop q).2
  | ref (q : Queue) : QueueStep q (queue_ref q)
  | unref (q q' : Queue) : (queue_unref q).1 = some q' → QueueStep q q'

/-- Queue states reachable from `queue_new` through the queue API. -/
inductive QueueReachable : Queue → Prop
  | new (maxitem maxsize : Int) : QueueReachable (queue_new maxitem maxsize)
  | step {q q' : Queue} : QueueReachable q → QueueStep q q' → QueueReachable q'

/-- The state invariant maintained by every queue operation: the item
counter counts the linked nodes, the readable signal tracks non-emptiness,
each pipe buffers exactly one byte per asserted status flag, a cleared
writable flag means the queue hit its item bound or a byte bound is
configured, and a positive item bound is never exceeded. -/
structure QueueInv (q : Queue) : Prop where
  len_eq : q.totalitem = q.items.length
  readable_iff : q.statusReadable = true ↔ 0 < q.totalitem
  rbytes : q.pipeReadableBytes = if q.statusReadable then 1 else 0
  wbytes : q.pipeWritableBytes = if q.statusWritable then 1 else 0
  writable_full : q.statusWritable = false →
    (0 < q.maxitem ∧ q.maxitem ≤ q.totalitem) ∨ 0 < q.maxsize
  bounded : 0 < q.maxitem → q.totalitem ≤ q.maxitem

lemma queue_new_eq (maxitem maxsize : Int) :
    queue_new maxitem maxsize =
      { maxitem := if 0 < maxitem then maxitem.toNat else 0
        maxsize := if 0 < maxsize then maxsize.toNat else 0
        totalitem := 0
        totalsize := 0
        items := []
        refcnt := 1
        statusReadable := false
        statusWritable := true
        pipeReadableBytes := 0
        pipeWritableBytes := 1 } := by
  unfold queue_new notify_writable
  by_cases h : (0:Int) < maxitem <;> simp [h]

lemma inv_new (maxitem maxsize : Int) : QueueInv (queue_new maxitem maxsize) := by
  rw [queue_new_eq]
  exact ⟨rfl, by simp, rfl, rfl, by simp, by simp⟩

lemma queue_push_full_eq {q : Queue} {s : Nat} (d : QData)
    (hf : queue_isfull q s = true) :
    queue_push q d s = (PushResult.full, unnotify_writable q) := by
  simp [queue_push, hf]

lemma queue_push_first_eq {q : Queue} {s : Nat} (d : QData)
    (hf : queue_isfull q s = false) (h0 : q.totalitem = 0)
    (hr : q.statusReadable = false) :
    queue_push q d s =
      (PushResult.accepted,
        { q with statusReadable := true,
                 pipeReadableBytes := q.pipeReadableBytes + 1,
                 totalitem := q.totalitem + 1,
                 totalsize := q.totalsize + s + queue_item_sizeof,
                 items := q.items ++ [(d, s)] }) := by
  simp [queue_push, hf, h0, notify_readable, hr]

lemma queue_push_next_eq {q : Queue} {s : Nat} (d : QData)
    (hf : queue_isfull q s = false) (h0 : q.totalitem ≠ 0) :
    queue_push q d s =
      (PushResult.accepted,
        { q with totalitem := q.totalitem + 1,
                 totalsize := q.totalsize + s + queue_item_sizeof,
                 items := q.items ++ [(d, s)] }) := by
  simp [queue_push, hf, h0]

lemma not_itemfull_of_not_full {q : Queue} {s : Nat}
    (hf : queue_isfull q s = false) :
    ¬(0 < q.maxitem ∧ q.maxitem ≤ q.totalitem) := by
  intro hc
  have : queue_isfull q s = true := by
    unfold queue_isfull
    simp [hc.1, hc.2]
  rw [this] at hf
  exact absurd hf (by simp)

lemma inv_push {q : Queue} (h : QueueInv q) (d : QData) (s : Nat) :
    QueueInv (queue_push q d s).2 := by
  obtain ⟨h1, h2, h3, h4, h5, h6⟩ := h
  cases hf : queue_isfull q s with
  | true =>
    rw [queue_push_full_eq d hf]
    unfold queue_isfull at hf
    simp only [Bool.or_eq_true, Bool.and_eq_true, decide_eq_true_eq] at hf
    unfold unnotify_writable
    split
    · refine ⟨h1, h2, h3, ?_, ?_, h6⟩
      · simp only
        rename_i hw
        simp [h4, hw]
      · intro _
        rcases hf with hf | hf
        · exact Or.inl hf
        · exact Or.inr hf.1
    · exact ⟨h1, h2, h3, h4, h5, h6⟩
  | false =>
    have hfa := not_itemfull_of_not_full hf
    by_cases h0 : q.totalitem = 0
    · have hr : q.statusReadable = false := by
        cases hb : q.statusReadable
        · rfl
        · exact absurd (h2.mp hb) (by omega)
      rw [queue_push_first_eq d hf h0 hr]
      refine ⟨?_, ?_, ?_, ?_, ?_, ?_⟩
      · simp [h1]
      · simp
      · simp [h3, hr]
      · simpa using h4
      · intro hw
        simp only at hw
        rcases h5 hw with h5' | h5'
        · exact absurd h5' hfa
        · exact Or.inr h5'
      · intro hm
        simp only at hm ⊢
        omega
    · rw [queue_push_next_eq d hf h0]
      have hr : q.statusReadable = true := h2.mpr (by omega)
      refine ⟨?_, ?_, ?_, ?_, ?_, ?_⟩
      · simp [h1]
      · simp [hr]
      · simpa using h3
      · simpa using h4
      · intro hw
        simp only at hw
        rcases h5 hw with h5' | h5'
        · exact absurd h5' hfa
        · exact Or.inr h5'
      · intro hm
        simp only at hm ⊢
        have hlt : ¬ q.maxitem ≤ q.totalitem := fun hle => hfa ⟨hm, hle⟩
        omega

lemma queue_pop_empty_eq {q : Queue} (hits : q.items = []) :
    queue_pop q = (none, q) := by
  simp [queue_pop, hits]

lemma queue_pop_last_eq {q : Queue} {d : QData} {s : Nat} {tl : List (QData × Nat)}
    (hits : q.items = (d, s) :: tl) (h1i : q.totalitem = 1)
    (hr : q.statusReadable = true) (hw : q.statusWritable = true) :
    queue_pop q =
      (some d,
        { q with statusReadable := false,
                 pipeReadableBytes := q.pipeReadableBytes - 1,
                 totalitem := q.totalitem - 1,
                 totalsize := q.totalsize - (s + queue_item_sizeof),
                 items := tl }) := by
  simp [queue_pop, hits, h1i, unnotify_readable, notify_writable, hr, hw]

lemma queue_pop_last_notify_eq {q : Queue} {d : QData} {s : Nat}
    {tl : List (QData × Nat)}
    (hits : q.items = (d, s) :: tl) (h1i : q.totalitem = 1)
    (hr : q.statusReadable = true) (hw : q.statusWritable = false) :
    queue_pop q =
      (some d,
        { q with statusReadable := false,
                 pipeReadableBytes := q.pipeReadableBytes - 1,
                 statusWritable := true,
                 pipeWritableBytes := q.pipeWritableBytes + 1,
                 totalitem := q.totalitem - 1,
                 totalsize := q.totalsize - (s + queue_item_sizeof),
                 items := tl }) := by
  simp [queue_pop, hits, h1i, unnotify_readable, notify_writable, hr, hw]

lemma queue_pop_mid_eq {q : Queue} {d : QData} {s : Nat} {tl : List (QData × Nat)}
    (hits : q.items = (d, s) :: tl) (h1i : q.totalitem ≠ 1)
    (hw : q.statusWritable = true) :
    queue_pop q =
      (some d,
        { q with totalitem := q.totalitem - 1,
                 totalsize := q.totalsize - (s + queue_item_sizeof),
                 items := tl }) := by
  simp [queue_pop, hits, h1i, notify_writable, hw]

lemma queue_pop_mid_notify_eq {q : Queue} {d : QData} {s : Nat}
    {tl : List (QData × Nat)}
    (hits : q.items = (d, s) :: tl) (h1i : q.totalitem ≠ 1)
    (hw : q.statusWritable = false) :
    queue_pop q =
      (some d,
        { q with statusWritable := true,
                 pipeWritableBytes := q.pipeWritableBytes + 1,
                 totalitem := q.totalitem - 1,
                 totalsize := q.totalsize - (s + queue_item_sizeof),
                 items := tl }) := by
  simp [queue_pop, hits, h1i, notify_writable, hw]

lemma inv_pop {q : Queue} (h : QueueInv q) : QueueInv (queue_pop q).2 := by
  obtain ⟨h1, h2, h3, h4, h5, h6⟩ := h
  match hits : q.items with
  | [] =>
    rw [queue_pop_empty_eq hits]
    exact ⟨h1, h2, h3, h4, h5, h6⟩
  | (d, s) :: tl =>
    have hlen : q.totalitem = tl.length + 1 := by
      rw [h1, hits]
      rfl
    have hr : q.statusReadable = true := h2.mpr (by omega)
    by_cases h1i : q.totalitem = 1
    · cases hw : q.statusWritable with
      | true =>
        rw [queue_pop_last_eq hits h1i hr hw]
        refine ⟨?_, ?_, ?_, ?_, ?_, ?_⟩
        · simp only
          omega
        · simp only [Bool.false_eq_true, false_iff]
          omega
        · simp [h3, hr]
        · simpa [hw] using h4
        · intro hc
          simp only at hc
          rw [hw] at hc
          cases hc
        · intro hm
          simp only at hm ⊢
          have := h6 hm
          omega
      | false =>
        rw [queue_pop_last_notify_eq hits h1i hr hw]
        refine ⟨?_, ?_, ?_, ?_, ?_, ?_⟩
        · simp only
          omega
        · simp only [Bool.false_eq_true, false_iff]
          omega
        · simp [h3, hr]
        · simp [h4, hw]
        · intro hc
          simp only at hc
          cases hc
        · intro hm
          simp only at hm ⊢
          have := h6 hm
          omega
    · cases hw : q.statusWritable with
      | true =>
        rw [queue_pop_mid_eq hits h1i hw]
        refine ⟨?_, ?_, ?_, ?_, ?_, ?_⟩
        · simp only
          omega
        · simp only [hr, true_iff]
          omega
        · simpa [hr] using h3
        · simpa [hw] using h4
        · intro hc
          simp only at hc
          rw [hw] at hc
          cases hc
        · intro hm
          simp only at hm ⊢
          have := h6 hm
          omega
      | false =>
        rw [queue_pop_mid_notify_eq hits h1i hw]
        refine ⟨?_, ?_, ?_, ?_, ?_, ?_⟩
        · simp only
          omega
        · simp only [hr, true_iff]
          omega
        · simpa [hr] using h3
        · simp [h4, hw]
        · intro hc
          simp only at hc
          cases hc
        · intro hm
          simp only at hm ⊢
          have := h6 hm
          omega


lemma inv_ref {q : Queue} (h : QueueInv q) : QueueInv (queue_ref q) := by
  obtain ⟨h1, h2, h3, h4, h5, h6⟩ := h
  exact ⟨h1, h2, h3, h4, h5, h6⟩

lemma inv_unref {q q' : Queue} (h : QueueInv q)
    (h' : (queue_unref q).1 = some q') : QueueInv q' := by
  obtain ⟨h1, h2, h3, h4, h5, h6⟩ := h
  unfold queue_unref at h'
  by_cases hr : 1 < q.refcnt
  · simp only [hr, if_true] at h'
    obtain rfl := Option.some_injective _ h'.symm
    exact ⟨h1, h2, h3, h4, h5, h6⟩
  · simp only [hr, if_false] at h'
    exact absurd h' (by simp)

@[simp] lemma notify_readable_items (q : Queue) :
    (notify_readable q).items = q.items := by
  unfold notify_readable
  split <;> rfl

@[simp] lemma notify_readable_totalitem (q : Queue) :
    (notify_readable q).totalitem = q.totalitem := by
  unfold notify_readable
  split <;> rfl

@[simp] lemma notify_readable_totalsize (q : Queue) :
    (notify_readable q).totalsize = q.totalsize := by
  unfold notify_readable
  split <;> rfl

@[simp] lemma notify_readable_maxitem (q : Queue) :
    (notify_readable q).maxitem = q.maxitem := by
  unfold notify_readable
  split <;> rfl

@[simp] lemma notify_readable_maxsize (q : Queue) :
    (notify_readable q).maxsize = q.maxsize := by
  unfold notify_readable
  split <;> rfl

@[simp] lemma notify_readable_refcnt (q : Queue) :
    (notify_readable q).refcnt = q.refcnt := by
  unfold notify_readable
  split <;> rfl

@[simp] lemma notify_readable_statusWritable (q : Queue) :
    (notify_readable q).statusWritable = q.statusWritable := by
  unfold notify_readable
  split <;> rfl

@[simp] lemma notify_readable_wbytes (q : Queue) :
    (notify_readable q).pipeWritableBytes = q.pipeWritableBytes := by
  unfold notify_readable
  split <;> rfl

@[simp] lemma notify_readable_statusReadable (q : Queue) :
    (notify_readable q).statusReadable = true := by
  unfold notify_readable
  split <;> simp_all

@[simp] lemma notify_writable_items (q : Queue) :
    (notify_writable q).items = q.items := by
  unfold notify_writable
  split <;> rfl

@[simp] lemma notify_writable_totalitem (q : Queue) :
    (notify_writable q).totalitem = q.totalitem := by
  unfold notify_writable
  split <;> rfl

@[simp] lemma notify_writable_totalsize (q : Queue) :
    (notify_writable q).totalsize = q.totalsize := by
  unfold notify_writable
  split <;> rfl

@[simp] lemma notify_writable_maxitem (q : Queue) :
    (notify_writable q).maxitem = q.maxitem := by
  unfold notify_writable
  split <;> rfl

@[simp] lemma notify_writable_maxsize (q : Queue) :
    (notify_writable q).maxsize = q.maxsize := by
  unfold notify_writable
  split <;> rfl

@[simp] lemma notify_writable_refcnt (q : Queue) :
    (notify_writable q).refcnt = q.refcnt := by
  unfold notify_writable
  split <;> rfl

@[simp] lemma notify_writable_statusReadable (q : Queue) :
    (notify_writable q).statusReadable = q.statusReadable := by
  unfold notify_writable
  split <;> rfl

@[simp] lemma notify_writable_rbytes (q : Queue) :
    (notify_writable q).pipeReadableBytes = q.pipeReadableBytes := by
  unfold notify_writable
  split <;> rfl

@[simp] lemma notify_writable_statusWritable (q : Queue) :
    (notify_writable q).statusWritable = true := by
  unfold notify_writable
  split <;> simp_all

@[simp] lemma unnotify_readable_items (q : Queue) :
    (unnotify_readable q).items = q.items := by
  unfold unnotify_readable
  split <;> rfl

@[simp] lemma unnotify_readable_totalitem (q : Queue) :
    (unnotify_readable q).totalitem = q.totalitem := by
  unfold unnotify_readable
  split <;> rfl

@[simp] lemma unnotify_readable_statusWritable (q : Queue) :
    (unnotify_readable q).statusWritable = q.statusWritable := by
  unfold unnotify_readable
  split <;> rfl

@[simp] lemma unnotify_readable_wbytes (q : Queue) :
    (unnotify_readable q).pipeWritableBytes = q.pipeWritableBytes := by
  unfold unnotify_readable
  split <;> rfl

@[simp] lemma unnotify_readable_statusReadable (q : Queue) :
    (unnotify_readable q).statusReadable = false := by
  unfold unnotify_readable
  split <;> simp_all

@[simp] lemma unnotify_writable_items (q : Queue) :
    (unnotify_writable q).items = q.items := by
  unfold unnotify_writable
  split <;> rfl

@[simp] lemma unnotify_writable_totalitem (q : Queue) :
    (unnotify_writable q).totalitem = q.totalitem := by
  unfold unnotify_writable
  split <;> rfl

@[simp] lemma unnotify_writable_totalsize (q : Queue) :
    (unnotify_writable q).totalsize = q.totalsize := by
  unfold unnotify_writable
  split <;> rfl

@[simp] lemma unnotify_writable_maxitem (q : Queue) :
    (unnotify_writable q).maxitem = q.maxitem := by
  unfold unnotify_writable
  split <;> rfl

@[simp] lemma unnotify_writable_maxsize (q : Queue) :
    (unnotify_writable q).maxsize = q.maxsize := by
  unfold unnotify_writable
  split <;> rfl

@[simp] lemma unnotify_writable_refcnt (q : Queue) :
    (unnotify_writable q).refcnt = q.refcnt := by
  unfold unnotify_writable
  split <;> rfl

@[simp] lemma unnotify_writable_statusReadable (q : Queue) :
    (unnotify_writable q).statusReadable = q.statusReadable := by
  unfold unnotify_writable
  split <;> rfl

@[simp] lemma unnotify_writable_rbytes (q : Queue) :
    (unnotify_writable q).pipeReadableBytes = q.pipeReadableBytes := by
  unfold unnotify_writable
  split <;> rfl

@[simp] lemma unnotify_writable_statusWritable (q : Queue) :
    (unnotify_writable q).statusWritable = false := by
  unfold unnotify_writable
  split <;> simp_all

lemma queue_push_fst (q : Queue) (d : QData) (s : Nat) :
    (queue_push q d s).1 =
      if queue_isfull q s = true then PushResult.full else PushResult.accepted := by
  unfold queue_push
  split <;> simp_all

lemma queue_push_snd_items (q : Queue) (d : QData) (s : Nat) :
    (queue_push q d s).2.items =
      if queue_isfull q s = true then q.items else q.items ++ [(d, s)] := by
  unfold queue_push
  split
  · simp_all
  · split <;> simp_all

lemma queue_pop_fst (q : Queue) :
    (queue_pop q).1 = q.items.head?.map Prod.fst := by
  unfold queue_pop
  match hits : q.items with
  | [] => simp [hits]
  | (d, s) :: tl => simp [hits]

lemma queue_pop_snd_items (q : Queue) :
    (queue_pop q).2.items = q.items.tail := by
  unfold queue_pop
  match hits : q.items with
  | [] => simp [hits]
  | (d, s) :: tl => simp [hits]

/-- Every reachable queue state satisfies the invariant. -/
lemma inv_reachable {q : Queue} (h : QueueReachable q) : QueueInv q := by
  induction h with
  | new maxitem maxsize => exact inv_new maxitem maxsize
  | step _ s ih =>
    cases s with
    | push d s => exact inv_push ih d s
    | pop => exact inv_pop ih
    | ref => exact inv_ref ih
    | unref q' h' => exact inv_unref ih h'

/-- Replaying any history of pushes and pops: the popped payloads followed by
the payloads still queued equal the initial contents followed by the
accepted pushes, all in order. -/
lemma runOps_fifo (ops : List QOp) (q : Queue) :
    (runOps ops q).popped ++ (runOps ops q).final.items.map Prod.fst =
      q.items.map Prod.fst ++ (runOps ops q).accepted := by
  induction ops generalizing q with
  | nil => simp [runOps]
  | cons op rest ih =>
    cases op with
    | push d s =>
      simp only [runOps]
      have h1 := queue_push_fst q d s
      have h2 := queue_push_snd_items q d s
      have hq := ih (queue_push q d s).2
      rw [h2] at hq
      cases hf : queue_isfull q s with
      | true =>
        rw [hf] at h1 hq
        simp only [if_true] at h1 hq
        rw [h1]
        simpa using hq
      | false =>
        rw [hf] at h1 hq
        simp only [Bool.false_eq_true, if_false] at h1 hq
        rw [h1]
        simpa using hq
    | pop =>
      simp only [runOps]
      rw [queue_pop_fst]
      have h2 := queue_pop_snd_items q
      have hq := ih (queue_pop q).2
      rw [h2] at hq
      cases hl : q.items with
      | nil =>
        rw [hl] at hq
        simp only [hl, List.head?_nil, Option.map_none, List.tail_nil] at hq ⊢
        simp only [List.map_nil, List.nil_append]
        exact hq
      | cons hd tl =>
        rw [hl] at hq
        simp only [List.tail_cons] at hq
        simp only [hl, List.head?_cons, Option.map_some]
        simp [hq]

lemma inv_runOps (ops : List QOp) {q : Queue} (h : QueueInv q) :
    QueueInv (runOps ops q).final := by
  induction ops generalizing q with
  | nil => exact h
  | cons op rest ih =>
    cases op with
    | push d s => exact ih (inv_push h d s)
    | pop => exact ih (inv_pop h)

/-- C1: replaying any sequence of queue_push/queue_pop calls on a fresh
queue without concurrency, each successful pop returns the oldest item not
yet popped (the popped payloads are exactly the first pops-many accepted
payloads, in push order), and when the number of successful pops equals the
number of accepted pushes, len() is 0 and the readable pipe holds no byte. -/
theorem queue_fifo_order (maxitem maxsize : Int) (ops : List QOp) :
    (runOps ops (queue_new maxitem maxsize)).popped ++
        (runOps ops (queue_new maxitem maxsize)).final.items.map Prod.fst =
      (runOps ops (queue_new maxitem maxsize)).accepted ∧
    (runOps ops (queue_new maxitem maxsize)).accepted.take
        (runOps ops (queue_new maxitem maxsize)).popped.length =
      (runOps ops (queue_new maxitem maxsize)).popped ∧
    ((runOps ops (queue_new maxitem maxsize)).popped.length =
        (runOps ops (queue_new maxitem maxsize)).accepted.length →
      queue_len (runOps ops (queue_new maxitem maxsize)).final = 0 ∧
      (runOps ops (queue_new maxitem maxsize)).final.statusReadable = false ∧
      (runOps ops (queue_new maxitem maxsize)).final.pipeReadableBytes = 0) := by
  have hnil : (queue_new maxitem maxsize).items = [] := by
    rw [queue_new_eq]
  have hmain := runOps_fifo ops (queue_new maxitem maxsize)
  rw [hnil] at hmain
  simp only [List.map_nil, List.nil_append] at hmain
  refine ⟨hmain, ?_, ?_⟩
  · rw [← hmain]
    exact List.take_left _ _
  · intro hlen
    have hinv := inv_runOps ops (inv_new maxitem maxsize)
    obtain ⟨h1, h2, h3, _, _, _⟩ := hinv
    have hml : (runOps ops (queue_new maxitem maxsize)).popped.length +
        ((runOps ops (queue_new maxitem maxsize)).final.items.map Prod.fst).length =
        (runOps ops (queue_new maxitem maxsize)).accepted.length := by
      rw [← hmain, List.length_append]
    have hz : (runOps ops (queue_new maxitem maxsize)).final.items.length = 0 := by
      simp only [List.length_map] at hml
      omega
    have hti : (runOps ops (queue_new maxitem maxsize)).final.totalitem = 0 := by
      rw [h1, hz]
    have hsr : (runOps ops (queue_new maxitem maxsize)).final.statusReadable = false := by
      cases hb : (runOps ops (queue_new maxitem maxsize)).final.statusReadable
      · rfl
      · exact absurd (h2.mp hb) (by omega)
    exact ⟨hti, hsr, by rw [h3, hsr]; rfl⟩

/-- A concrete history for the C1 witness: two accepted pushes, two
successful pops of the same payloads. -/
def fifoDemoOps : List QOp :=
  [QOp.push (QData.integer 42) 0, QOp.push (QData.str ['x']) 1, QOp.pop, QOp.pop]

theorem queue_fifo_order_witness :
    (runOps fifoDemoOps (queue_new 0 0)).popped.length =
        (runOps fifoDemoOps (queue_new 0 0)).accepted.length ∧
    ((runOps fifoDemoOps (queue_new 0 0)).popped ++
        (runOps fifoDemoOps (queue_new 0 0)).final.items.map Prod.fst =
      (runOps fifoDemoOps (queue_new 0 0)).accepted) ∧
    queue_len (runOps fifoDemoOps (queue_new 0 0)).final = 0 ∧
    (runOps fifoDemoOps (queue_new 0 0)).final.statusReadable = false ∧
    (runOps fifoDemoOps (queue_new 0 0)).final.pipeReadableBytes = 0 := by
  have h := queue_fifo_order 0 0 fifoDemoOps
  exact ⟨by decide, h.1, h.2.2 (by decide)⟩

/-- C2 counterexample: on a queue created with max_items = 1, the push that
fills the queue leaves the writable signal asserted although
item_count = max_items — the code clears the signal only lazily, at the
next push attempt that finds the queue full, so "writable iff
(max_items == 0 or item_count < max_items)" fails at this reachable state. -/
theorem writable_iff_counterexample :
    QueueReachable (queue_push (queue_new 1 0) (QData.integer 7) 4).2 ∧
    (queue_push (queue_new 1 0) (QData.integer 7) 4).2.statusWritable = true ∧
    ¬((queue_push (queue_new 1 0) (QData.integer 7) 4).2.maxitem = 0 ∨
      (queue_push (queue_new 1 0) (QData.integer 7) 4).2.totalitem <
        (queue_push (queue_new 1 0) (QData.integer 7) 4).2.maxitem) :=
  ⟨QueueReachable.step (QueueReachable.new 1 0)
      (QueueStep.push (queue_new 1 0) (QData.integer 7) 4),
   by decide, by decide⟩

/-- C2 (amended): the writable signal is managed lazily.  It is asserted at
creation and re-asserted (one buffered byte) by every successful pop; it is
cleared exactly by a push attempt that returns Full; consequently in any
reachable state a cleared writable signal implies the item bound is reached
(or a byte bound is configured), but the signal may remain asserted while
len() == max_items until the next rejected push.  At most one byte is ever
buffered in the writable pipe. -/
theorem writable_signal_lazy (maxitem maxsize : Int) (q : Queue)
    (hq : QueueReachable q) (d : QData) (s : Nat) :
    (queue_new maxitem maxsize).statusWritable = true ∧
    (q.statusWritable = false →
      (0 < q.maxitem ∧ q.maxitem ≤ q.totalitem) ∨ 0 < q.maxsize) ∧
    q.pipeWritableBytes = (if q.statusWritable then 1 else 0) ∧
    (q.items ≠ [] →
      (queue_pop q).2.statusWritable = true ∧
      (queue_pop q).2.pipeWritableBytes = 1) ∧
    ((queue_push q d s).1 = PushResult.full →
      (queue_push q d s).2.statusWritable = false ∧
      (queue_push q d s).2.pipeWritableBytes = 0) := by
  obtain ⟨h1, h2, h3, h4, h5, h6⟩ := inv_reachable hq
  refine ⟨by rw [queue_new_eq], h5, h4, ?_, ?_⟩
  · intro hne
    have hpop := inv_pop ⟨h1, h2, h3, h4, h5, h6⟩
    obtain ⟨_, _, _, hw4, _, _⟩ := hpop
    have hwt : (queue_pop q).2.statusWritable = true := by
      unfold queue_pop
      match hits : q.items with
      | [] => exact absurd hits hne
      | (d0, s0) :: tl => simp
    rw [hwt] at hw4
    exact ⟨hwt, by rw [hw4]; rfl⟩
  · intro hfull
    have hf : queue_isfull q s = true := by
      have := queue_push_fst q d s
      rw [hfull] at this
      cases hb : queue_isfull q s
      · rw [hb] at this
        simp at this
      · rfl
    rw [queue_push_full_eq d hf]
    refine ⟨by simp, ?_⟩
    unfold unnotify_writable
    split
    · rename_i hw
      simp only
      rw [h4, if_pos hw]
    · rename_i hw
      simp only [Bool.not_eq_true] at hw
      rw [h4, if_neg (by rw [hw]; exact Bool.false_ne_true)]

theorem writable_signal_lazy_witness :
    QueueReachable (queue_push (queue_new 1 0) (QData.integer 7) 4).2 ∧
    ((queue_push (queue_new 1 0) (QData.integer 7) 4).2.items ≠ [] →
      (queue_pop (queue_push (queue_new 1 0) (QData.integer 7) 4).2).2.statusWritable =
        true ∧
      (queue_pop (queue_push (queue_new 1 0) (QData.integer 7) 4).2).2.pipeWritableBytes =
        1) ∧
    ((queue_push (queue_push (queue_new 1 0) (QData.integer 7) 4).2
        (QData.integer 8) 4).1 = PushResult.full →
      (queue_push (queue_push (queue_new 1 0) (QData.integer 7) 4).2
        (QData.integer 8) 4).2.statusWritable = false ∧
      (queue_push (queue_push (queue_new 1 0) (QData.integer 7) 4).2
        (QData.integer 8) 4).2.pipeWritableBytes = 0) := by
  have hr : QueueReachable (queue_push (queue_new 1 0) (QData.integer 7) 4).2 :=
    QueueReachable.step (QueueReachable.new 1 0)
      (QueueStep.push (queue_new 1 0) (QData.integer 7) 4)
  have h := writable_signal_lazy 1 0 _ hr (QData.integer 8) 4
  exact ⟨hr, h.2.2.2.1, h.2.2.2.2⟩

/-- C3: a push on a queue whose item bound is positive and reached returns
Full and leaves the item count, byte count, linked-list contents, readable
signal, reference count and bounds unchanged; only the writable signal is
cleared (and its pipe byte drained). -/
theorem queue_push_full_frame (q : Queue) (d : QData) (s : Nat)
    (hm : 0 < q.maxitem) (hfull : q.totalitem = q.maxitem) :
    (queue_push q d s).1 = PushResult.full ∧
    (queue_push q d s).2.totalitem = q.totalitem ∧
    (queue_push q d s).2.totalsize = q.totalsize ∧
    (queue_push q d s).2.items = q.items ∧
    (queue_push q d s).2.statusReadable = q.statusReadable ∧
    (queue_push q d s).2.pipeReadableBytes = q.pipeReadableBytes ∧
    (queue_push q d s).2.refcnt = q.refcnt ∧
    (queue_push q d s).2.maxitem = q.maxitem ∧
    (queue_push q d s).2.maxsize = q.maxsize ∧
    (queue_push q d s).2.statusWritable = false := by
  have hf : queue_isfull q s = true := by
    unfold queue_isfull
    simp [hm, hfull.symm.le]
  rw [queue_push_full_eq d hf]
  refine ⟨rfl, by simp, by simp, by simp, by simp, ?_, by simp, by simp, by simp,
    by simp⟩
  exact unnotify_writable_rbytes q

/-- Queue state for the C3 witness: max_items = 2 already holding 2 items. -/
def fullDemoQueue : Queue :=
  (queue_push (queue_push (queue_new 2 0) (QData.integer 1) 0).2
    (QData.integer 2) 0).2

theorem queue_push_full_frame_witness :
    0 < fullDemoQueue.maxitem ∧
    fullDemoQueue.totalitem = fullDemoQueue.maxitem ∧
    (queue_push fullDemoQueue (QData.integer 3) 0).1 = PushResult.full ∧
    (queue_push fullDemoQueue (QData.integer 3) 0).2.totalitem = 2 ∧
    (queue_push fullDemoQueue (QData.integer 3) 0).2.items = fullDemoQueue.items := by
  have h := queue_push_full_frame fullDemoQueue (QData.integer 3) 0
    (by decide) (by decide)
  exact ⟨by decide, by decide, h.1, by decide, h.2.2.2.1⟩

/-- C4: in every reachable queue state the readable signal is asserted iff
item_count > 0, the readable pipe buffers exactly one byte per asserted
signal (so never more than one byte), and the signal is toggled only on the
0-to-1 transition of a push and the 1-to-0 transition of a pop: pushes onto
a non-empty queue and pops leaving the queue non-empty do not touch it. -/
theorem readable_signal_discipline (q : Queue) (hq : QueueReachable q)
    (d : QData) (s : Nat) :
    (q.statusReadable = true ↔ 0 < q.totalitem) ∧
    q.pipeReadableBytes = (if q.statusReadable then 1 else 0) ∧
    q.pipeReadableBytes ≤ 1 ∧
    (0 < q.totalitem →
      (queue_push q d s).2.statusReadable = q.statusReadable ∧
      (queue_push q d s).2.pipeReadableBytes = q.pipeReadableBytes) ∧
    (1 < q.totalitem →
      (queue_pop q).2.statusReadable = q.statusReadable ∧
      (queue_pop q).2.pipeReadableBytes = q.pipeReadableBytes) ∧
    (q.totalitem = 0 → (queue_push q d s).1 = PushResult.accepted →
      (queue_push q d s).2.statusReadable = true ∧
      (queue_push q d s).2.pipeReadableBytes = 1) ∧
    (q.totalitem = 1 →
      (queue_pop q).2.statusReadable = false ∧
      (queue_pop q).2.pipeReadableBytes = 0) := by
  obtain ⟨h1, h2, h3, h4, h5, h6⟩ := inv_reachable hq
  refine ⟨h2, h3, by rw [h3]; split <;> omega, ?_, ?_, ?_, ?_⟩
  · intro hpos
    cases hf : queue_isfull q s with
    | true =>
      rw [queue_push_full_eq d hf]
      exact ⟨by simp, by simp⟩
    | false =>
      rw [queue_push_next_eq d hf (by omega)]
      exact ⟨rfl, rfl⟩
  · intro hmulti
    have hne : q.items ≠ [] := by
      intro hnil
      rw [h1, hnil] at hmulti
      simp at hmulti
    match hits : q.items with
    | [] => exact absurd hits hne
    | (d0, s0) :: tl =>
      cases hw : q.statusWritable with
      | true =>
        rw [queue_pop_mid_eq hits (by omega) hw]
        exact ⟨rfl, rfl⟩
      | false =>
        rw [queue_pop_mid_notify_eq hits (by omega) hw]
        exact ⟨rfl, rfl⟩
  · intro hzero hacc
    have hf : queue_isfull q s = false := by
      cases hb : queue_isfull q s
      · rfl
      · rw [queue_push_full_eq d hb] at hacc
        exact absurd hacc (by simp)
    have hr : q.statusReadable = false := by
      cases hb : q.statusReadable
      · rfl
      · exact absurd (h2.mp hb) (by omega)
    rw [queue_push_first_eq d hf hzero hr]
    refine ⟨rfl, ?_⟩
    simp only
    rw [h3, if_neg (by rw [hr]; exact Bool.false_ne_true)]
  · intro hone
    have hr : q.statusReadable = true := h2.mpr (by omega)
    match hits : q.items with
    | [] =>
      rw [h1, hits] at hone
      exact absurd hone (by simp)
    | (d0, s0) :: tl =>
      cases hw : q.statusWritable with
      | true =>
        rw [queue_pop_last_eq hits hone hr hw]
        refine ⟨rfl, ?_⟩
        simp only
        rw [h3, if_pos hr]
      | false =>
        rw [queue_pop_last_notify_eq hits hone hr hw]
        refine ⟨rfl, ?_⟩
        simp only
        rw [h3, if_pos hr]

theorem readable_signal_discipline_witness :
    QueueReachable (queue_push (queue_new 0 0) (QData.integer 5) 8).2 ∧
    ((queue_push (queue_new 0 0) (QData.integer 5) 8).2.statusReadable = true ↔
      0 < (queue_push (queue_new 0 0) (QData.integer 5) 8).2.totalitem) ∧
    (queue_push (queue_new 0 0) (QData.integer 5) 8).2.pipeReadableBytes ≤ 1 ∧
    ((queue_push (queue_new 0 0) (QData.integer 5) 8).2.totalitem = 1 →
      (queue_pop (queue_push (queue_new 0 0) (QData.integer 5) 8).2).2.statusReadable =
        false ∧
      (queue_pop (queue_push (queue_new 0 0) (QData.integer 5) 8).2).2.pipeReadableBytes =
        0) := by
  have hr : QueueReachable (queue_push (queue_new 0 0) (QData.integer 5) 8).2 :=
    QueueReachable.step (QueueReachable.new 0 0)
      (QueueStep.push (queue_new 0 0) (QData.integer 5) 8)
  have h := readable_signal_discipline _ hr (QData.integer 6) 8
  exact ⟨hr, h.1, h.2.2.1, h.2.2.2.2.2.2⟩

/-- C5: queue_new yields ref_count 1; queue_ref only increments the count;
queue_unref on a count above 1 only decrements it (destroying nothing);
queue_unref at count 1 destroys the queue exactly then, handing every
remaining payload to the delete callback in order and then closing both
pipe pairs and freeing the structure. -/
theorem queue_refcount_lifecycle (maxitem maxsize : Int) (q q1 q2 : Queue)
    (hgt : 1 < q1.refcnt) (hone : q2.refcnt = 1) :
    queue_nref (queue_new maxitem maxsize) = 1 ∧
    queue_ref q = { q with refcnt := q.refcnt + 1 } ∧
    queue_nref (queue_ref q) = queue_nref q + 1 ∧
    queue_unref q1 = (some { q1 with refcnt := q1.refcnt - 1 }, []) ∧
    queue_unref q2 =
      (none,
        q2.items.map (fun it => DestroyEvent.deleteCb it.1) ++
          [DestroyEvent.closedPipeReadable, DestroyEvent.closedPipeWritable,
           DestroyEvent.freed]) := by
  refine ⟨?_, rfl, rfl, ?_, ?_⟩
  · rw [queue_new_eq]
    rfl
  · unfold queue_unref
    rw [if_pos hgt]
  · unfold queue_unref
    rw [if_neg (by omega)]

theorem queue_refcount_lifecycle_witness :
    1 < (queue_ref (queue_new 3 0)).refcnt ∧
    (queue_push (queue_new 0 0) (QData.integer 9) 2).2.refcnt = 1 ∧
    queue_nref (queue_new 5 7) = 1 ∧
    queue_unref (queue_ref (queue_new 3 0)) =
      (some { (queue_ref (queue_new 3 0)) with
                refcnt := (queue_ref (queue_new 3 0)).refcnt - 1 }, []) ∧
    queue_unref (queue_push (queue_new 0 0) (QData.integer 9) 2).2 =
      (none,
        [DestroyEvent.deleteCb (QData.integer 9), DestroyEvent.closedPipeReadable,
         DestroyEvent.closedPipeWritable, DestroyEvent.freed]) := by
  have h := queue_refcount_lifecycle 5 7 (queue_new 0 0)
    (queue_ref (queue_new 3 0)) (queue_push (queue_new 0 0) (QData.integer 9) 2).2
    (by decide) (by decide)
  refine ⟨by decide, by decide, h.1, h.2.2.2.1, ?_⟩
  rw [h.2.2.2.2]
  decide

/-- lpthread_status_t (lpthread.h). -/
inductive ThreadStatus where
  | running : ThreadStatus
  | terminated : ThreadStatus
  | failed : ThreadStatus
  | cancelled : ThreadStatus
deriving DecidableEq

/-- The parent-side state of an `lpthread_t` handle: whether pipefd[0] (the
completion pipe's read side) is still open, whether cancelfd[1] (the
cancellation pipe's write side) is still open, the status field written by
the child's exit handler, the bounded error-message buffer (contents only,
the NUL terminator is implicit), and the ghost flag recording that
pthread_join has completed. -/
structure Thread where
  pipeOpen : Bool
  cancelOpen : Bool
  status : ThreadStatus
  errmsg : List Char
  joined : Bool
deriving DecidableEq

/-- A freshly created thread handle (new_lua, lpthread.c:201): both pipes
open, status THREAD_RUNNING, empty error buffer, not joined. -/
def thread_new : Thread :=
  { pipeOpen := true, cancelOpen := true, status := ThreadStatus.running,
    errmsg := [], joined := false }

/-- Outcome of one non-blocking read(2) on the completion pipe, as
case-split by join_lua (lpthread.c:46-78). -/
inductive ReadResult where
  | wouldBlock : ReadResult
  | intr : ReadResult
  | readErr (e : Nat) : ReadResult
  | eofRead : ReadResult
  | data : ReadResult
deriving DecidableEq

def eINTR : Nat := 4

def eBADF : Nat := 9

/-- The luaL_error message of join_lua's zero-byte case (lpthread.c:68). -/
def join_pipe_closed_msg : List Char :=
  ("the pipe for inter-thread communication was closed for unknown reasons.").toList

/-- The Lua-level result of join: `ok` is `true`; `notYet` is
`(false, nil, true)`; `ioError e` is `(false, <errno error e>)`;
`fatalError m` is a raised Lua error with message m. -/
inductive JoinOutcome where
  | ok : JoinOutcome
  | notYet : JoinOutcome
  | ioError (e : Nat) : JoinOutcome
  | fatalError (msg : List Char) : JoinOutcome
deriving DecidableEq

/-- The FORCE_JOIN tail of join_lua (lpthread.c:80-93): pthread_join, close
the read side, mark pipefd[0] = -1, return true. -/
def force_join (th : Thread) : Thread :=
  { th with pipeOpen := false, joined := true }

/-- The read-and-retry loop of join_lua (lpthread.c:45-78) over a script of
successive read outcomes; the Bool records whether the single EINTR retry
has been used, and the Nat counts read attempts. -/
def join_go (th : Thread) : List ReadResult → Bool → (Thread × JoinOutcome) × Nat
  | [], _ => ((th, JoinOutcome.ioError 0), 0)
  | ReadResult.wouldBlock :: _, _ => ((th, JoinOutcome.notYet), 1)
  | ReadResult.intr :: rest, false =>
    let r := join_go th rest true
    (r.1, r.2 + 1)
  | ReadResult.intr :: _, true => ((th, JoinOutcome.ioError eINTR), 1)
  | ReadResult.readErr e :: _, _ =>
    if e = eBADF then ((force_join th, JoinOutcome.ok), 1)
    else ((th, JoinOutcome.ioError e), 1)
  | ReadResult.eofRead :: _, _ =>
    ((th, JoinOutcome.fatalError join_pipe_closed_msg), 1)
  | ReadResult.data :: _, _ => ((force_join th, JoinOutcome.ok), 1)

/-- join_lua (lpthread.c:30): an already-joined handle (pipefd[0] == -1)
immediately returns true; otherwise run the non-blocking read case split. -/
def join_lua (th : Thread) (reads : List ReadResult) : Thread × JoinOutcome :=
  if th.pipeOpen = false then (th, JoinOutcome.ok)
  else (join_go th reads false).1

/-- Outcome of one write(2)/read(2) syscall for the queue's notify/unnotify
helpers and cancel's write. -/
inductive ErrnoOutcome where
  | ok : ErrnoOutcome
  | eagain : ErrnoOutcome
  | eintr : ErrnoOutcome
  | errOther (e : Nat) : ErrnoOutcome
deriving DecidableEq

/-- The retry loop of `notify` (queue.c:50): EAGAIN/EWOULDBLOCK counts as
success, a first EINTR is retried once, any other failure (or a second
EINTR) returns -1.  Returns (result, number of write attempts). -/
def notify_run : List ErrnoOutcome → Bool → Int × Nat
  | [], _ => (0, 0)
  | ErrnoOutcome.ok :: _, _ => (0, 1)
  | ErrnoOutcome.eagain :: _, _ => (0, 1)
  | ErrnoOutcome.eintr :: rest, false =>
    let r := notify_run rest true
    (r.1, r.2 + 1)
  | ErrnoOutcome.eintr :: _, true => (-1, 1)
  | ErrnoOutcome.errOther _ :: _, _ => (-1, 1)

/-- The retry loop of `unnotify` (queue.c:86), identical in structure to
`notify` but reading instead of writing. -/
def unnotify_run : List ErrnoOutcome → Bool → Int × Nat
  | [], _ => (0, 0)
  | ErrnoOutcome.ok :: _, _ => (0, 1)
  | ErrnoOutcome.eagain :: _, _ => (0, 1)
  | ErrnoOutcome.eintr :: rest, false =>
    let r := unnotify_run rest true
    (r.1, r.2 + 1)
  | ErrnoOutcome.eintr :: _, true => (-1, 1)
  | ErrnoOutcome.errOther _ :: _, _ => (-1, 1)

/-- The cancel-message write loop of cancel_lua (lpthread.c:115-124): a
successful 1-byte write succeeds; EINTR jumps back to RETRY with no retry
counter, so it retries on every EINTR; any other failure reports an error.
Returns (success flag, number of write attempts). -/
def cancel_write : List ErrnoOutcome → Bool × Nat
  | [] => (false, 0)
  | ErrnoOutcome.ok :: _ => (true, 1)
  | ErrnoOutcome.eintr :: rest =>
    let r := cancel_write rest
    (r.1, r.2 + 1)
  | ErrnoOutcome.eagain :: _ => (false, 1)
  | ErrnoOutcome.errOther _ :: _ => (false, 1)

/-- Lua-level result of cancel: `ok` is `true`, `ioError` is
`(false, <error message>)`. -/
inductive CancelOutcome where
  | ok : CancelOutcome
  | ioError : CancelOutcome
deriving DecidableEq

/-- cancel_lua (lpthread.c:96): on a running thread with notify=true, write
the cancel byte (unless cancelfd[1] is already closed) and close the write
side on success; with notify=false issue pthread_cancel (modelled as
succeeding); on a non-running thread do nothing and return true. -/
def cancel_lua (th : Thread) (notify : Bool) (writes : List ErrnoOutcome) :
    Thread × CancelOutcome :=
  if th.status = ThreadStatus.running then
    if notify then
      if th.cancelOpen = false then (th, CancelOutcome.ok)
      else if (cancel_write writes).1 then
        ({ th with cancelOpen := false }, CancelOutcome.ok)
      else (th, CancelOutcome.ioError)
    else (th, CancelOutcome.ok)
  else (th, CancelOutcome.ok)

/-- status_lua (lpthread.c:142): "running" while pipefd[0] is still open;
afterwards the stored status decides, with the default branch reporting
"failed" together with the error message. -/
def status_lua (th : Thread) : String × Option (List Char) :=
  if th.pipeOpen then ("running", none)
  else
    match th.status with
    | ThreadStatus.terminated => ("terminated", none)
    | ThreadStatus.cancelled => ("cancelled", none)
    | _ => ("failed", some th.errmsg)

/-- on_cleanup (self.c:33): the child's exit handler.  lua_status -1 means
still running (cancellation), 0 means LUA_OK, anything else is an uncaught
error whose text is copied into the bounded buffer, keeping at most cap-1
bytes (cap = sizeof errmsg); the handler then writes the sentinel byte. -/
def on_cleanup (th : Thread) (luaStatus : Int) (errstr : List Char) (cap : Nat) :
    Thread :=
  if luaStatus = -1 then { th with status := ThreadStatus.cancelled }
  else if luaStatus = 0 then { th with status := ThreadStatus.terminated }
  else { th with status := ThreadStatus.failed, errmsg := errstr.take (cap - 1) }

/-- One step of the thread-handle API. -/
inductive ThreadStep : Thread → Thread → Prop
  | join (th : Thread) (reads : List ReadResult) :
      ThreadStep th (join_lua th reads).1
  | cancel (th : Thread) (notify : Bool) (writes : List ErrnoOutcome) :
      ThreadStep th (cancel_lua th notify writes).1
  | cleanup (th : Thread) (luaStatus : Int) (errstr : List Char) (cap : Nat) :
      ThreadStep th (on_cleanup th luaStatus errstr cap)

/-- Thread-handle states reachable from creation. -/
inductive ThreadReachable : Thread → Prop
  | new : ThreadReachable thread_new
  | step {th th' : Thread} :
      ThreadReachable th → ThreadStep th th' → ThreadReachable th'

lemma join_go_thread (th : Thread) (reads : List ReadResult) (retried : Bool) :
    (join_go th reads retried).1.1 = th ∨
      (join_go th reads retried).1.1 = force_join th := by
  induction reads generalizing retried with
  | nil => exact Or.inl rfl
  | cons r rest ih =>
    cases r with
    | wouldBlock => exact Or.inl rfl
    | intr =>
      cases retried with
      | false => simpa [join_go] using ih true
      | true => exact Or.inl rfl
    | readErr e =>
      by_cases he : e = eBADF
      · right
        simp [join_go, he]
      · left
        simp [join_go, he]
    | eofRead => exact Or.inl rfl
    | data => exact Or.inr rfl

lemma join_lua_thread (th : Thread) (reads : List ReadResult) :
    (join_lua th reads).1 = th ∨ (join_lua th reads).1 = force_join th := by
  unfold join_lua
  split
  · exact Or.inl rfl
  · exact join_go_thread th reads false

lemma cancel_lua_frame (th : Thread) (notify : Bool) (writes : List ErrnoOutcome) :
    (cancel_lua th notify writes).1.pipeOpen = th.pipeOpen ∧
    (cancel_lua th notify writes).1.joined = th.joined ∧
    (cancel_lua th notify writes).1.status = th.status ∧
    (cancel_lua th notify writes).1.errmsg = th.errmsg := by
  unfold cancel_lua
  split
  · split
    · split
      · exact ⟨rfl, rfl, rfl, rfl⟩
      · split
        · exact ⟨rfl, rfl, rfl, rfl⟩
        · exact ⟨rfl, rfl, rfl, rfl⟩
    · exact ⟨rfl, rfl, rfl, rfl⟩
  · exact ⟨rfl, rfl, rfl, rfl⟩

lemma on_cleanup_frame (th : Thread) (luaStatus : Int) (errstr : List Char)
    (cap : Nat) :
    (on_cleanup th luaStatus errstr cap).pipeOpen = th.pipeOpen ∧
    (on_cleanup th luaStatus errstr cap).joined = th.joined := by
  unfold on_cleanup
  split
  · exact ⟨rfl, rfl⟩
  · split
    · exact ⟨rfl, rfl⟩
    · exact ⟨rfl, rfl⟩

/-- Lifecycle invariant: the completion pipe's read side is open exactly
while the thread has not been joined. -/
lemma thread_pipe_open_iff_not_joined {th : Thread} (h : ThreadReachable th) :
    th.pipeOpen = !th.joined := by
  induction h with
  | new => rfl
  | step _ s ih =>
    cases s with
    | join reads =>
      rcases join_lua_thread _ reads with he | he <;> rw [he]
      · exact ih
      · rfl
    | cancel notify writes =>
      obtain ⟨hp, hj, _, _⟩ := cancel_lua_frame _ notify writes
      rw [hp, hj]
      exact ih
    | cleanup luaStatus errstr cap =>
      obtain ⟨hp, hj⟩ := on_cleanup_frame _ luaStatus errstr cap
      rw [hp, hj]
      exact ih

/-- C6: join on a not-yet-joined thread case-splits on the non-blocking
read of the completion pipe: a read that would block yields the
distinguished not-yet-finished outcome (false, nil, true), not an error;
exactly one sentinel byte performs the native join and closes the read end,
after which every further join call immediately returns success; and zero
bytes (peer closed without writing) raises the fatal protocol-violation
error saying the pipe was closed for unknown reasons. -/
theorem join_case_split (th : Thread) (rest rest2 : List ReadResult)
    (hopen : th.pipeOpen = true) :
    join_lua th (ReadResult.wouldBlock :: rest) = (th, JoinOutcome.notYet) ∧
    join_lua th (ReadResult.data :: rest) = (force_join th, JoinOutcome.ok) ∧
    (force_join th).pipeOpen = false ∧
    join_lua (force_join th) rest2 = (force_join th, JoinOutcome.ok) ∧
    join_lua th (ReadResult.eofRead :: rest) =
      (th, JoinOutcome.fatalError join_pipe_closed_msg) := by
  refine ⟨?_, ?_, rfl, ?_, ?_⟩ <;> simp [join_lua, join_go, hopen, force_join]

theorem join_case_split_witness :
    thread_new.pipeOpen = true ∧
    (join_lua thread_new [ReadResult.wouldBlock] = (thread_new, JoinOutcome.notYet) ∧
     join_lua thread_new [ReadResult.data] =
       (force_join thread_new, JoinOutcome.ok) ∧
     (force_join thread_new).pipeOpen = false ∧
     join_lua (force_join thread_new) [] = (force_join thread_new, JoinOutcome.ok) ∧
     join_lua thread_new [ReadResult.eofRead] =
       (thread_new, JoinOutcome.fatalError join_pipe_closed_msg)) :=
  ⟨rfl, join_case_split thread_new [] [] rfl⟩

/-- C7: status() reports "running" exactly while the completion pipe's read
side is open; in every reachable handle state that read side is open iff
the thread has not been joined; once the pipe has delivered its sentinel
byte (consumed by join, which closes the read side) the stored terminal
state is authoritative — status() then reports "terminated", "cancelled",
or "failed" together with the stored error message. -/
theorem status_reporting (th : Thread) (hth : ThreadReachable th)
    (rest : List ReadResult) :
    (th.pipeOpen = true → status_lua th = ("running", none)) ∧
    (th.pipeOpen = true ↔ th.joined = false) ∧
    (th.pipeOpen = false → th.status = ThreadStatus.terminated →
      status_lua th = ("terminated", none)) ∧
    (th.pipeOpen = false → th.status = ThreadStatus.cancelled →
      status_lua th = ("cancelled", none)) ∧
    (th.pipeOpen = false → th.status = ThreadStatus.failed →
      status_lua th = ("failed", some th.errmsg)) ∧
    (th.pipeOpen = true →
      (join_lua th (ReadResult.data :: rest)).1.joined = true ∧
      (th.status = ThreadStatus.terminated →
        status_lua (join_lua th (ReadResult.data :: rest)).1 =
          ("terminated", none)) ∧
      (th.status = ThreadStatus.cancelled →
        status_lua (join_lua th (ReadResult.data :: rest)).1 =
          ("cancelled", none)) ∧
      (th.status = ThreadStatus.failed →
        status_lua (join_lua th (ReadResult.data :: rest)).1 =
          ("failed", some th.errmsg))) := by
  have hiff := thread_pipe_open_iff_not_joined hth
  refine ⟨?_, ?_, ?_, ?_, ?_, ?_⟩
  · intro hp
    simp [status_lua, hp]
  · rw [hiff]
    cases th.joined <;> simp
  · intro hp hs
    simp [status_lua, hp, hs]
  · intro hp hs
    simp [status_lua, hp, hs]
  · intro hp hs
    simp [status_lua, hp, hs]
  · intro hp
    have hj : join_lua th (ReadResult.data :: rest) =
        (force_join th, JoinOutcome.ok) := by
      simp [join_lua, join_go, hp]
    rw [hj]
    refine ⟨rfl, ?_, ?_, ?_⟩ <;> intro hs <;>
      simp [status_lua, force_join, hs]

theorem status_reporting_witness :
    ThreadReachable thread_new ∧
    (thread_new.pipeOpen = true → status_lua thread_new = ("running", none)) ∧
    (thread_new.pipeOpen = true ↔ thread_new.joined = false) ∧
    (thread_new.pipeOpen = true →
      (join_lua thread_new [ReadResult.data]).1.joined = true ∧
      (thread_new.status = ThreadStatus.terminated →
        status_lua (join_lua thread_new [ReadResult.data]).1 =
          ("terminated", none)) ∧
      (thread_new.status = ThreadStatus.cancelled →
        status_lua (join_lua thread_new [ReadResult.data]).1 =
          ("cancelled", none)) ∧
      (thread_new.status = ThreadStatus.failed →
        status_lua (join_lua thread_new [ReadResult.data]).1 =
          ("failed", some thread_new.errmsg))) := by
  have h := status_reporting thread_new ThreadReachable.new []
  exact ⟨ThreadReachable.new, h.1, h.2.1, h.2.2.2.2.2⟩

/-- C8 counterexample: the cancellation-pipe write in cancel_lua has no
retry counter, so a script of two EINTRs followed by success performs three
write attempts — the byte is retried twice, not at most once as claimed. -/
theorem eintr_retry_counterexample :
    cancel_write [ErrnoOutcome.eintr, ErrnoOutcome.eintr, ErrnoOutcome.ok] =
      (true, 3) ∧
    2 < (cancel_write
      [ErrnoOutcome.eintr, ErrnoOutcome.eintr, ErrnoOutcome.ok]).2 :=
  ⟨by decide, by decide⟩

/-- C8 (amended): retries of pipe I/O happen only when the failure is
EINTR.  The queue's notify/unnotify and join's completion-pipe read retry
at most once (at most two syscall attempts, the second only after a first
EINTR); cancel's cancellation-pipe write instead retries on every EINTR
without bound (k leading EINTRs cause k+1 attempts).  Non-EINTR failures
are never retried. -/
theorem eintr_retry_discipline (s : List ErrnoOutcome) (th : Thread)
    (reads : List ReadResult) (k : Nat) :
    (notify_run s false).2 ≤ 2 ∧
    ((notify_run s false).2 = 2 → s.head? = some ErrnoOutcome.eintr) ∧
    (unnotify_run s false).2 ≤ 2 ∧
    ((unnotify_run s false).2 = 2 → s.head? = some ErrnoOutcome.eintr) ∧
    (join_go th reads false).2 ≤ 2 ∧
    ((join_go th reads false).2 = 2 → reads.head? = some ReadResult.intr) ∧
    (2 ≤ (cancel_write s).2 → s.head? = some ErrnoOutcome.eintr) ∧
    cancel_write (List.replicate k ErrnoOutcome.eintr ++ [ErrnoOutcome.ok]) =
      (true, k + 1) := by
  have hnr : ∀ t : List ErrnoOutcome, (notify_run t true).2 ≤ 1 := by
    intro t
    cases t with
    | nil => simp [notify_run]
    | cons r rr => cases r <;> simp [notify_run]
  have hur : ∀ t : List ErrnoOutcome, (unnotify_run t true).2 ≤ 1 := by
    intro t
    cases t with
    | nil => simp [unnotify_run]
    | cons r rr => cases r <;> simp [unnotify_run]
  have hjr : ∀ t : List ReadResult, (join_go th t true).2 ≤ 1 := by
    intro t
    cases t with
    | nil => simp [join_go]
    | cons r rr =>
      cases r with
      | readErr e => by_cases he : e = eBADF <;> simp [join_go, he]
      | _ => simp [join_go]
  refine ⟨?_, ?_, ?_, ?_, ?_, ?_, ?_, ?_⟩
  · cases s with
    | nil => simp [notify_run]
    | cons r rr =>
      cases r with
      | eintr =>
        have := hnr rr
        simp only [notify_run]
        omega
      | _ => simp [notify_run]
  · cases s with
    | nil => simp [notify_run]
    | cons r rr => cases r <;> simp [notify_run]
  · cases s with
    | nil => simp [unnotify_run]
    | cons r rr =>
      cases r with
      | eintr =>
        have := hur rr
        simp only [unnotify_run]
        omega
      | _ => simp [unnotify_run]
  · cases s with
    | nil => simp [unnotify_run]
    | cons r rr => cases r <;> simp [unnotify_run]
  · cases reads with
    | nil => simp [join_go]
    | cons r rr =>
      cases r with
      | intr =>
        have := hjr rr
        simp only [join_go]
        omega
      | readErr e => by_cases he : e = eBADF <;> simp [join_go, he]
      | _ => simp [join_go]
  · cases reads with
    | nil => simp [join_go]
    | cons r rr =>
      cases r with
      | readErr e => by_cases he : e = eBADF <;> simp [join_go, he]
      | _ => simp [join_go]
  · cases s with
    | nil => simp [cancel_write]
    | cons r rr => cases r <;> simp [cancel_write]
  · induction k with
    | zero => decide
    | succ n ihn =>
      simp only [List.replicate_succ, List.cons_append, cancel_write]
      have hap : (List.replicate n ErrnoOutcome.eintr).append [ErrnoOutcome.ok] =
          List.replicate n ErrnoOutcome.eintr ++ [ErrnoOutcome.ok] := rfl
      rw [hap, ihn]

theorem eintr_retry_discipline_witness :
    (notify_run [ErrnoOutcome.eintr, ErrnoOutcome.ok] false).2 ≤ 2 ∧
    ((notify_run [ErrnoOutcome.eintr, ErrnoOutcome.ok] false).2 = 2 →
      [ErrnoOutcome.eintr, ErrnoOutcome.ok].head? = some ErrnoOutcome.eintr) ∧
    (unnotify_run [ErrnoOutcome.eintr, ErrnoOutcome.ok] false).2 ≤ 2 ∧
    ((unnotify_run [ErrnoOutcome.eintr, ErrnoOutcome.ok] false).2 = 2 →
      [ErrnoOutcome.eintr, ErrnoOutcome.ok].head? = some ErrnoOutcome.eintr) ∧
    (join_go thread_new [ReadResult.intr, ReadResult.data] false).2 ≤ 2 ∧
    ((join_go thread_new [ReadResult.intr, ReadResult.data] false).2 = 2 →
      [ReadResult.intr, ReadResult.data].head? = some ReadResult.intr) ∧
    (2 ≤ (cancel_write [ErrnoOutcome.eintr, ErrnoOutcome.ok]).2 →
      [ErrnoOutcome.eintr, ErrnoOutcome.ok].head? = some ErrnoOutcome.eintr) ∧
    cancel_write (List.replicate 2 ErrnoOutcome.eintr ++ [ErrnoOutcome.ok]) =
      (true, 2 + 1) :=
  eintr_retry_discipline [ErrnoOutcome.eintr, ErrnoOutcome.ok] thread_new
    [ReadResult.intr, ReadResult.data] 2

/-- C9: when the spawned program raises an uncaught error (lua_status
neither -1 nor 0), the exit handler stores the error text truncated to at
most cap-1 bytes (cap the buffer capacity) and sets the status to Failed;
after the sentinel byte is consumed by join, status() yields ("failed",
message) with exactly that possibly-truncated text. -/
theorem failed_thread_errmsg (th : Thread) (luaStatus : Int) (msg : List Char)
    (cap : Nat) (reads : List ReadResult) (_hcap : 0 < cap)
    (h1 : luaStatus ≠ -1) (h2 : luaStatus ≠ 0) (hopen : th.pipeOpen = true) :
    (on_cleanup th luaStatus msg cap).status = ThreadStatus.failed ∧
    (on_cleanup th luaStatus msg cap).errmsg = msg.take (cap - 1) ∧
    (on_cleanup th luaStatus msg cap).errmsg.length ≤ cap - 1 ∧
    (cap - 1 < msg.length →
      (on_cleanup th luaStatus msg cap).errmsg.length = cap - 1) ∧
    status_lua
        (join_lua (on_cleanup th luaStatus msg cap) (ReadResult.data :: reads)).1 =
      ("failed", some (msg.take (cap - 1))) := by
  have hcl : on_cleanup th luaStatus msg cap =
      { th with status := ThreadStatus.failed, errmsg := msg.take (cap - 1) } := by
    unfold on_cleanup
    rw [if_neg h1, if_neg h2]
  rw [hcl]
  refine ⟨rfl, rfl, ?_, ?_, ?_⟩
  · simp only [List.length_take]
    omega
  · intro hlong
    simp only [List.length_take]
    omega
  · have hj : join_lua
        { th with status := ThreadStatus.failed, errmsg := msg.take (cap - 1) }
        (ReadResult.data :: reads) =
        (force_join { th with status := ThreadStatus.failed,
                              errmsg := msg.take (cap - 1) }, JoinOutcome.ok) := by
      simp [join_lua, join_go, hopen]
    rw [hj]
    simp [status_lua, force_join]

theorem failed_thread_errmsg_witness :
    0 < 4 ∧ (2:Int) ≠ -1 ∧ (2:Int) ≠ 0 ∧ thread_new.pipeOpen = true ∧
    ((on_cleanup thread_new 2 ("boom boom").toList 4).status =
        ThreadStatus.failed ∧
      (on_cleanup thread_new 2 ("boom boom").toList 4).errmsg =
        ("boom boom").toList.take 3 ∧
      (on_cleanup thread_new 2 ("boom boom").toList 4).errmsg.length ≤ 3 ∧
      (3 < ("boom boom").toList.length →
        (on_cleanup thread_new 2 ("boom boom").toList 4).errmsg.length = 3) ∧
      status_lua
          (join_lua (on_cleanup thread_new 2 ("boom boom").toList 4)
            [ReadResult.data]).1 =
        ("failed", some (("boom boom").toList.take 3))) :=
  ⟨by decide, by decide, by decide, rfl,
   failed_thread_errmsg thread_new 2 ("boom boom").toList 4 []
     (by decide) (by decide) (by decide) rfl⟩

/-- An `lpthread_queue_t` handle (lpthread.h): a pointer to the shared
queue plus the per-handle closed flag. -/
structure LQueue where
  queue : Queue
  closed : Bool
deriving DecidableEq

/-- check_lpthread_queue (lqueue.c:57): raise the Lua argument error
"queue is closed" when the handle has been closed, before touching the
underlying queue. -/
def check_lpthread_queue (h : LQueue) : Except String LQueue :=
  if h.closed then Except.error "queue is closed" else Except.ok h

/-- sizeof(qdata_t) (lqueue.c): tag byte plus the 16-byte union, padded. -/
def qdata_sizeof : Nat := 24

/-- The byte size accounted for a pushed value (push_lua, lqueue.c:120,144):
the qdata_t header plus, for strings, the string bytes appended after it. -/
def qdata_size : QData → Nat
  | QData.str s => qdata_sizeof + s.length
  | _ => qdata_sizeof

/-- Lua-level push result: `pushedOk` is `true`, `queueFull` is
`(false, nil, true)`. -/
inductive LuaPushResult where
  | pushedOk : LuaPushResult
  | queueFull : LuaPushResult
deriving DecidableEq

/-- push_lua (lqueue.c:116): check the handle, then push the encoded value
with its accounted size. -/
def push_lua (h : LQueue) (v : QData) : Except String (LQueue × LuaPushResult) :=
  match check_lpthread_queue h with
  | Except.error e => Except.error e
  | Except.ok h =>
    match queue_push h.queue v (qdata_size v) with
    | (PushResult.accepted, q2) =>
      Except.ok ({ h with queue := q2 }, LuaPushResult.pushedOk)
    | (PushResult.full, q2) =>
      Except.ok ({ h with queue := q2 }, LuaPushResult.queueFull)

/-- pop_lua (lqueue.c:64): check the handle, then pop; `none` is the empty
result `(nil, nil, true)`. -/
def pop_lua (h : LQueue) : Except String (LQueue × Option QData) :=
  match check_lpthread_queue h with
  | Except.error e => Except.error e
  | Except.ok h =>
    let r := queue_pop h.queue
    Except.ok ({ h with queue := r.2 }, r.1)

/-- len_lua (lqueue.c:246). -/
def len_lua (h : LQueue) : Except String Nat :=
  (check_lpthread_queue h).map (fun h => queue_len h.queue)

/-- size_lua (lqueue.c:231). -/
def size_lua (h : LQueue) : Except String Nat :=
  (check_lpthread_queue h).map (fun h => queue_size h.queue)

/-- maxitem_lua (lqueue.c:261). -/
def maxitem_lua (h : LQueue) : Except String Nat :=
  (check_lpthread_queue h).map (fun h => queue_maxitem h.queue)

/-- nref_lua (lqueue.c:276). -/
def nref_lua (h : LQueue) : Except String Nat :=
  (check_lpthread_queue h).map (fun h => queue_nref h.queue)

/-- fd_readable_lua (lqueue.c:201); the numeric descriptor value is not
modelled, only the check-then-return behaviour. -/
def fd_readable_lua (h : LQueue) : Except String Unit :=
  (check_lpthread_queue h).map (fun _ => ())

/-- fd_writable_lua (lqueue.c:216). -/
def fd_writable_lua (h : LQueue) : Except String Unit :=
  (check_lpthread_queue h).map (fun _ => ())

/-- close_lua (lqueue.c:291): unref the queue and mark the handle closed on
the first call; later calls return true without touching the queue.  The
Bool is the Lua return value, the event list the destruction side effects
of the unref (empty unless this handle held the last reference). -/
def close_lua (h : LQueue) : LQueue × Bool × List DestroyEvent :=
  if h.closed then (h, true, [])
  else
    match queue_unref h.queue with
    | (some q2, evts) => ({ queue := q2, closed := true }, true, evts)
    | (none, evts) => ({ h with closed := true }, true, evts)

/-- gc_lua (lqueue.c:314): unref the underlying queue only when the handle
was not closed.  The Bool records whether queue_unref was invoked. -/
def gc_lua (h : LQueue) : Bool × List DestroyEvent :=
  if h.closed then (false, [])
  else
    match queue_unref h.queue with
    | (_, evts) => (true, evts)

/-- C10: on a closed handle every queue method raises the argument error
"queue is closed" without touching the underlying queue; close() on an
already-closed handle returns true without another unref (no destruction
events); a second close() after a successful close() does nothing further;
and gc unrefs the underlying queue exactly when the handle was not already
closed. -/
theorem closed_queue_handle (h h2 : LQueue) (v : QData)
    (hc : h.closed = true) (ho : h2.closed = false) :
    push_lua h v = Except.error "queue is closed" ∧
    pop_lua h = Except.error "queue is closed" ∧
    len_lua h = Except.error "queue is closed" ∧
    size_lua h = Except.error "queue is closed" ∧
    maxitem_lua h = Except.error "queue is closed" ∧
    nref_lua h = Except.error "queue is closed" ∧
    fd_readable_lua h = Except.error "queue is closed" ∧
    fd_writable_lua h = Except.error "queue is closed" ∧
    close_lua h = (h, true, []) ∧
    gc_lua h = (false, []) ∧
    (close_lua h2).1.closed = true ∧
    (close_lua h2).2.1 = true ∧
    close_lua (close_lua h2).1 = ((close_lua h2).1, true, []) ∧
    (gc_lua h2).1 = true := by
  have hclosed : ∀ hh : LQueue, hh.closed = true →
      check_lpthread_queue hh = Except.error "queue is closed" := by
    intro hh hhc
    unfold check_lpthread_queue
    rw [if_pos hhc]
  have hc2 : (close_lua h2).1.closed = true := by
    unfold close_lua
    rw [if_neg (by rw [ho]; exact Bool.false_ne_true)]
    rcases hu : queue_unref h2.queue with ⟨oq, evts⟩
    cases oq <;> simp
  refine ⟨?_, ?_, ?_, ?_, ?_, ?_, ?_, ?_, ?_, ?_, hc2, ?_, ?_, ?_⟩
  · unfold push_lua
    rw [hclosed h hc]
  · unfold pop_lua
    rw [hclosed h hc]
  · unfold len_lua
    rw [hclosed h hc]
    rfl
  · unfold size_lua
    rw [hclosed h hc]
    rfl
  · unfold maxitem_lua
    rw [hclosed h hc]
    rfl
  · unfold nref_lua
    rw [hclosed h hc]
    rfl
  · unfold fd_readable_lua
    rw [hclosed h hc]
    rfl
  · unfold fd_writable_lua
    rw [hclosed h hc]
    rfl
  · unfold close_lua
    rw [if_pos hc]
  · unfold gc_lua
    rw [if_pos hc]
  · unfold close_lua
    rw [if_neg (by rw [ho]; exact Bool.false_ne_true)]
    rcases hu : queue_unref h2.queue with ⟨oq, evts⟩
    cases oq <;> simp
  · conv_lhs => rw [close_lua]
    rw [if_pos hc2]
  · unfold gc_lua
    rw [if_neg (by rw [ho]; exact Bool.false_ne_true)]

/-- A closed and an open handle over fresh queues, for the C10 witness. -/
def closedDemoHandle : LQueue := { queue := queue_new 0 0, closed := true }

/-- The open handle used by the C10 witness. -/
def openDemoHandle : LQueue := { queue := queue_new 0 0, closed := false }

theorem closed_queue_handle_witness :
    closedDemoHandle.closed = true ∧ openDemoHandle.closed = false ∧
    (push_lua closedDemoHandle QData.qtrue = Except.error "queue is closed" ∧
     pop_lua closedDemoHandle = Except.error "queue is closed" ∧
     len_lua closedDemoHandle = Except.error "queue is closed" ∧
     size_lua closedDemoHandle = Except.error "queue is closed" ∧
     maxitem_lua closedDemoHandle = Except.error "queue is closed" ∧
     nref_lua closedDemoHandle = Except.error "queue is closed" ∧
     fd_readable_lua closedDemoHandle = Except.error "queue is closed" ∧
     fd_writable_lua closedDemoHandle = Except.error "queue is closed" ∧
     close_lua closedDemoHandle = (closedDemoHandle, true, []) ∧
     gc_lua closedDemoHandle = (false, []) ∧
     (close_lua openDemoHandle).1.closed = true ∧
     (close_lua openDemoHandle).2.1 = true ∧
     close_lua (close_lua openDemoHandle).1 =
       ((close_lua openDemoHandle).1, true, []) ∧
     (gc_lua openDemoHandle).1 = true) :=
  ⟨rfl, rfl,
   closed_queue_handle closedDemoHandle openDemoHandle QData.qtrue rfl rfl⟩

end LuaPthread
